import Mathlib

/-!
Verification of the background request-rewrite pipeline of the hackbar
repository (background message router, capture listeners, rule engine and
lifecycle teardown), shallowly embedded in Lean 4.

The embedding follows `src/eslint-config/typescript.js` (the background
script).  Parts of the repository that the background script imports but
whose sources are absent (`./store`, `../processors`,
`../utils/constants`) and host/platform primitives
(`declarativeNetRequest`, `URLSearchParams`) are modelled from the spec,
each marked in its doc comment.
-/

namespace HackBar

/-- A header edit as carried in an edited request snapshot:
`{enabled, name, value, removeIfEmptyValue, _createdAt}`. -/
structure HeaderEdit where
  enabled : Bool
  name : String
  value : String
  removeIfEmptyValue : Bool
  createdAt : Nat
deriving Repr, DecidableEq

/-- The `operation` field of a `ModifyHeaderInfo` directive. -/
inductive HeaderOperation where
  | set
  | remove
deriving Repr, DecidableEq

/-- A `browser.DeclarativeNetRequest.ModifyHeaderInfo` directive:
`{header, operation, value?}`; `value` is absent for `remove`. -/
structure ModifyHeaderInfo where
  header : String
  operation : HeaderOperation
  value : Option String
deriving Repr, DecidableEq

/-- Directive computation of the execute path (source lines 95-110):
filter the modified headers to the enabled ones with a non-empty name,
then map each retained edit to a `set` directive when its value is
non-empty or its remove-if-empty flag is false, and to a `remove`
directive otherwise. -/
def sessionRulesOf (modifiedHeaders : List HeaderEdit) : List ModifyHeaderInfo :=
  (modifiedHeaders.filter (fun h => h.enabled && h.name.length > 0)).map
    (fun h =>
      if h.value.length ≠ 0 || !h.removeIfEmptyValue then
        { header := h.name, operation := .set, value := some h.value }
      else
        { header := h.name, operation := .remove, value := none })

/-- Statement of the per-edit directive from the spec's words: an enabled
edit with non-empty name yields exactly one directive (`set` carrying the
value when the value is non-empty or remove-if-empty is false, `remove`
when the value is empty and remove-if-empty is true); a disabled or
empty-named edit yields none.  Compared against `sessionRulesOf`. -/
def specDirectiveOf (h : HeaderEdit) : Option ModifyHeaderInfo :=
  if h.enabled = true ∧ h.name ≠ "" then
    some (if h.value ≠ "" ∨ h.removeIfEmptyValue = false then
      { header := h.name, operation := .set, value := some h.value }
    else
      { header := h.name, operation := .remove, value := none })
  else
    none

/-- A body codec (processor): named strategy with a canonical name
(`getName`), a canonical form enctype (`getFormEnctype`), a canonical wire
content-type (`getHttpContentType`) and a wire content-type match
predicate.  The structure mirrors the capability interface described in
the spec; instances live in the registry. -/
structure Processor where
  name : String
  formEnctype : String
  httpContentType : String
  accepts : String → Bool

/-- Modelled from the spec: the body codec registry (`../processors` is
absent from `src/`) — a fixed ordered list of processors with one
designated default; `find` looks a codec up by name, `findByContentType`
is a first-match scan in registration order. -/
structure Registry where
  processors : List Processor
  defaultProcessor : Processor

def Registry.find (r : Registry) (name : String) : Option Processor :=
  r.processors.find? (fun p => p.name == name)

def Registry.findByContentType (r : Registry) (contentType : String) : Option Processor :=
  r.processors.find? (fun p => p.accepts contentType)

def Registry.getDefaultProcessor (r : Registry) : Processor :=
  r.defaultProcessor

def Registry.getDefaultProcessorName (r : Registry) : String :=
  r.defaultProcessor.name

/-- Modelled from the spec: `BodyAvailableMethods`
(`../utils/constants` is absent from `src/`) — the fixed set of HTTP
methods that carry a body. -/
def BodyAvailableMethods : List String :=
  ["POST", "PUT", "PATCH"]

/-- The synthetic header edit pushed by the execute path
(source lines 85-91) when the resolved processor's form enctype differs
from its wire content-type. -/
def syntheticContentTypeEdit (p : Processor) : HeaderEdit :=
  { enabled := true
    name := "content-type"
    value := p.httpContentType
    removeIfEmptyValue := false
    createdAt := 0 }

/-- Header-edit preparation of the execute path (source lines 76-93):
when the method carries a body, resolve the processor by the declared
enctype — throwing `Unsupported enctype` when none is registered — and
append the synthetic content-type edit when the processor's form enctype
and wire content-type differ. -/
def modifiedHeadersOf (registry : Registry) (method : String) (enctype : String)
    (headers : List HeaderEdit) : Except String (List HeaderEdit) :=
  if BodyAvailableMethods.contains method then
    match registry.find enctype with
    | none => .error "Unsupported enctype"
    | some p =>
      if p.formEnctype != p.httpContentType then
        .ok (headers ++ [syntheticContentTypeEdit p])
      else
        .ok headers
  else
    .ok headers

/-- A session rule as added by the execute path: `{id, action:
{type: "modifyHeaders", requestHeaders}, condition: {tabIds,
resourceTypes}}`. -/
structure SessionRule where
  id : Nat
  requestHeaders : List ModifyHeaderInfo
  tabIds : List Nat
  resourceTypes : List String
deriving Repr, DecidableEq

/-- An `UpdateRuleOptions` value: rule ids to remove plus rules to add
(`addRules` is the empty list when the field is absent). -/
structure UpdateRuleOptions where
  removeRuleIds : List Nat
  addRules : List SessionRule
deriving Repr, DecidableEq

/-- The rule update built by the execute path (source lines 111-129):
always remove the rule with the session's id, and add the single scoped
rule only when at least one directive was produced. -/
def updateRuleOptionsOf (tabId : Nat) (directives : List ModifyHeaderInfo) :
    UpdateRuleOptions :=
  { removeRuleIds := [tabId]
    addRules :=
      if directives.length > 0 then
        [{ id := tabId
           requestHeaders := directives
           tabIds := [tabId]
           resourceTypes := ["main_frame"] }]
      else
        [] }

/-- Modelled from the spec: the host rule subsystem
(`browser.declarativeNetRequest.updateSessionRules`) applies an update
atomically — remove every rule whose id is listed, then append the added
rules; removing an absent id is not an error. -/
def updateSessionRules (rules : List SessionRule) (opts : UpdateRuleOptions) :
    List SessionRule :=
  rules.filter (fun r => !opts.removeRuleIds.contains r.id) ++ opts.addRules

/-- The lifecycle teardown handler (source lines 275-290), shared by the
redirect, completed and errored subscriptions: submit a rule update
removing the rule with the session's id. -/
def handleResponseCompleted (rules : List SessionRule) (tabId : Nat) :
    List SessionRule :=
  updateSessionRules rules { removeRuleIds := [tabId], addRules := [] }

/-- The body part of a captured request snapshot:
`{enctype, content}`. -/
structure BrowseRequestBody where
  enctype : String
  content : String
deriving Repr, DecidableEq

/-- A captured request snapshot (`BrowseRequest`):
`{url, method, headers, body}`. -/
structure BrowseRequest where
  url : String
  method : String
  headers : List HeaderEdit
  body : BrowseRequestBody
deriving Repr, DecidableEq

/-- Modelled from the spec: the Session Store (`./store` is absent from
`src/`) — a pure keyed store mapping a session identifier to its captured
snapshot and its control-channel peer (peers are identified abstractly by
a number), with no logic beyond storage. -/
structure TabStore where
  requests : List (Nat × BrowseRequest)
  connections : List (Nat × Nat)
deriving Repr, DecidableEq

def TabStore.getBrowseRequest (st : TabStore) (tabId : Nat) : Option BrowseRequest :=
  (st.requests.find? (fun e => e.1 == tabId)).map (fun e => e.2)

def TabStore.getConnection (st : TabStore) (tabId : Nat) : Option Nat :=
  (st.connections.find? (fun e => e.1 == tabId)).map (fun e => e.2)

/-- Modelled from the spec: `updateBrowseRequest` overwrites (or creates)
the snapshot entry for the identifier, leaving other entries alone. -/
def TabStore.updateBrowseRequest (st : TabStore) (tabId : Nat) (r : BrowseRequest) :
    TabStore :=
  { st with requests := (tabId, r) :: st.requests.filter (fun e => e.1 ≠ tabId) }

/-- Modelled from the spec: `remove` deletes the store entry (snapshot and
peer reference) for the identifier; removing an absent entry is a no-op. -/
def TabStore.remove (st : TabStore) (tabId : Nat) : TabStore :=
  { requests := st.requests.filter (fun e => e.1 ≠ tabId)
    connections := st.connections.filter (fun e => e.1 ≠ tabId) }

/-- The `browser.tabs.onRemoved` listener (source lines 305-307): it calls
only `tabStore.remove(tabId)`; the rule state is not touched.  The pair is
(session store, active session rules). -/
def onTabRemoved (st : TabStore) (rules : List SessionRule) (tabId : Nat) :
    TabStore × List SessionRule :=
  (st.remove tabId, rules)

/-- A raw body segment of a request-initiation event: optional external
file reference and optional inline bytes.  The platform text decoder is
modelled by carrying a segment's bytes as their decoded text. -/
structure RawSegment where
  file : Option String
  bytes : Option String
deriving Repr, DecidableEq

/-- JavaScript truthiness of an optional string field (`if (data.file)`):
absent and empty strings are falsy. -/
def jsTruthyStr : Option String → Bool
  | none => false
  | some s => s ≠ ""

/-- Per-segment text of the raw branch of the capture listener (source
lines 216-225): a (truthy) file reference renders as a placeholder naming
the file, absent bytes render as the empty string, otherwise the decoded
bytes. -/
def rawSegmentText (d : RawSegment) : String :=
  if jsTruthyStr d.file then
    "[Content of '" ++ d.file.getD "" ++ "']"
  else
    match d.bytes with
    | none => ""
    | some b => b

/-- Raw-branch body reconstruction (source lines 214-227): map every
segment to its text and join. -/
def rawBodyContent (segments : List RawSegment) : String :=
  String.join (segments.map rawSegmentText)

/-- Modelled from the spec: one byte of the WHATWG
`application/x-www-form-urlencoded` serialization used by the platform
`URLSearchParams.toString` — space becomes `+`, ASCII alphanumerics and
`*-._` pass through, every other byte is percent-encoded. -/
def formUrlEncodeByte (b : Nat) : String :=
  if b = 32 then "+"
  else if (48 ≤ b ∧ b ≤ 57) ∨ (65 ≤ b ∧ b ≤ 90) ∨ (97 ≤ b ∧ b ≤ 122)
      ∨ b = 42 ∨ b = 45 ∨ b = 46 ∨ b = 95 then
    (Char.ofNat b).toString
  else
    "%" ++ (Nat.toDigits 16 b).asString.toUpper

/-- Modelled from the spec: the UTF-8 bytes of one character, as the
platform serializer encodes it. -/
def utf8BytesOfChar (c : Char) : List Nat :=
  let n := c.toNat
  if n < 128 then [n]
  else if n < 2048 then [192 + n / 64, 128 + n % 64]
  else if n < 65536 then [224 + n / 4096, 128 + (n / 64) % 64, 128 + n % 64]
  else [240 + n / 262144, 128 + (n / 4096) % 64, 128 + (n / 64) % 64, 128 + n % 64]

/-- Modelled from the spec: `application/x-www-form-urlencoded`
serialization of one string. -/
def formUrlEncode (s : String) : String :=
  String.join ((s.data.flatMap utf8BytesOfChar).map formUrlEncodeByte)

/-- Modelled from the spec: `URLSearchParams.toString()` over an ordered
pair list — `name=value` entries joined by `&`, both sides encoded. -/
def serializeParams (params : List (String × String)) : String :=
  String.intercalate "&"
    (params.map (fun p => formUrlEncode p.1 ++ "=" ++ formUrlEncode p.2))

/-- Form-data branch of the capture listener (source lines 202-213):
append every value of every field in order (multi-valued keys repeated)
and serialize.  Form data is an ordered list of
(field name, decoded values). -/
def formDataBodyContent (formData : List (String × List String)) : String :=
  serializeParams (formData.flatMap (fun f => f.2.map (fun v => (f.1, v))))

/-- The `requestBody` field of a request-initiation event. -/
structure RequestBodyEvent where
  formData : Option (List (String × List String))
  raw : Option (List RawSegment)

/-- Body reconstruction of the capture listener (source lines 199-227):
form data wins over raw segments; with neither, the body is empty. -/
def bodyContentOf (requestBody : Option RequestBodyEvent) : String :=
  match requestBody with
  | none => ""
  | some rb =>
    match rb.formData with
    | some fd => formDataBodyContent fd
    | none =>
      match rb.raw with
      | some segs => rawBodyContent segs
      | none => ""

/-- The `onBeforeRequest` capture listener (source lines 197-247):
reconstruct the body, build a snapshot with the registry's default
processor name as enctype and an empty header list, and overwrite the
store entry for the event's tab. -/
def onBeforeRequest (registry : Registry) (st : TabStore) (tabId : Nat)
    (url : String) (method : String) (requestBody : Option RequestBodyEvent) :
    TabStore :=
  st.updateBrowseRequest tabId
    { url := url
      method := method.toUpper
      headers := []
      body :=
        { enctype := registry.getDefaultProcessorName
          content := bodyContentOf requestBody } }

/-- An outgoing HTTP header of the header-send event. -/
structure HttpHeader where
  name : String
  value : Option String
deriving Repr, DecidableEq

/-- Modelled from the spec: the platform `toLowerCase()` used for the
case-insensitive header-name match, character-wise lowering. -/
def jsToLower (s : String) : String := ⟨s.data.map Char.toLower⟩

/-- The `onBeforeSendHeaders` encoding-resolver listener (source lines
251-267): find the content-type header case-insensitively (absent →
no-op); then dereference the stored snapshot with a non-null assertion —
`none` models the fault when no snapshot exists — and overwrite only the
snapshot's enctype with the resolved processor's name. -/
def onBeforeSendHeaders (registry : Registry) (st : TabStore) (tabId : Nat)
    (requestHeaders : Option (List HttpHeader)) : Option TabStore :=
  match (requestHeaders.getD []).find? (fun h => jsToLower h.name == "content-type") with
  | none => some st
  | some ct =>
    match st.getBrowseRequest tabId with
    | none => none
    | some request =>
      let processor :=
        (registry.findByContentType (ct.value.getD "")).getD
          registry.getDefaultProcessor
      some (st.updateBrowseRequest tabId
        { request with body := { request.body with enctype := processor.name } })

/-- Outcome of the load branch of the message router (source lines
70-74): `fault` models the failed non-null assertion
`tabStore.getConnection(tabId)!` when no peer is attached; `sent conn
snapshot` models posting `{type: "load", data: snapshot}` to the attached
peer (the snapshot is `none` when no capture happened yet, i.e. the field
is `undefined`). -/
inductive LoadResult where
  | fault
  | sent (conn : Nat) (snapshot : Option BrowseRequest)
deriving Repr, DecidableEq

/-- The load branch of `handleMessage` (source lines 70-74): dereference
the connection unconditionally and post the stored snapshot verbatim. -/
def handleLoad (st : TabStore) (tabId : Nat) : LoadResult :=
  match st.getConnection tabId with
  | none => .fault
  | some conn => .sent conn (st.getBrowseRequest tabId)

/-- Observable host actions of the execute branch, in order. -/
inductive Effect where
  | updateRules (opts : UpdateRuleOptions)
  | executeScript (tabId : Nat) (files : List String)
  | sendBody (tabId : Nat)
  | postError (tabId : Nat) (data : String)
  | navigate (tabId : Nat) (url : String)
deriving Repr, DecidableEq

/-- An execute control message: session identifier plus the edited
snapshot. -/
structure ExecuteMessage where
  tabId : Nat
  data : BrowseRequest
deriving Repr, DecidableEq

/-- Host actions of the execute branch after the rule update (source
lines 132-154): either the in-page submit — script injection then body
message, forwarding a non-null submit outcome to the peer — or a
navigation to the edited URL. -/
def executeTail (submitOutcome : Option String) (msg : ExecuteMessage) :
    List Effect :=
  if BodyAvailableMethods.contains msg.data.method then
    [Effect.executeScript msg.tabId ["core/post.js"], Effect.sendBody msg.tabId]
      ++ match submitOutcome with
         | some err => [Effect.postError msg.tabId err]
         | none => []
  else
    [Effect.navigate msg.tabId msg.data.url]

/-- The execute branch of `handleMessage` (source lines 75-154), as the
ordered list of host actions it performs, or the thrown error.
`submitOutcome` is the value awaited from the in-page submit
(`browser.tabs.sendMessage`); `none` models a `null` outcome.  Preparing
the headers (and its `Unsupported enctype` throw) happens before any host
action; then the rule update is submitted; then the tail actions run. -/
def handleExecute (registry : Registry) (submitOutcome : Option String)
    (msg : ExecuteMessage) : Except String (List Effect) :=
  match modifiedHeadersOf registry msg.data.method msg.data.body.enctype
      msg.data.headers with
  | .error e => .error e
  | .ok modifiedHeaders =>
    .ok (Effect.updateRules
        (updateRuleOptionsOf msg.tabId (sessionRulesOf modifiedHeaders))
      :: executeTail submitOutcome msg)

/-- The active-rule state reached by a list of effects: only rule updates
touch it. -/
def applyEffects (rules : List SessionRule) (effects : List Effect) :
    List SessionRule :=
  effects.foldl
    (fun rs e =>
      match e with
      | .updateRules opts => updateSessionRules rs opts
      | _ => rs)
    rules

/-- Rule state after an execute message: a thrown error leaves the rules
unchanged, a completed run applies its effects. -/
def executeRuleState (registry : Registry) (submitOutcome : Option String)
    (msg : ExecuteMessage) (rules : List SessionRule) : List SessionRule :=
  match handleExecute registry submitOutcome msg with
  | .error _ => rules
  | .ok effects => applyEffects rules effects

/-! ## Concrete fixtures used by witnesses and counterexamples -/

/-- A processor whose form enctype differs from its wire content-type. -/
def wProc : Processor :=
  { name := "multipart"
    formEnctype := "multipart/form-data"
    httpContentType := "multipart/form-data; boundary=x"
    accepts := fun s => s == "multipart/form-data" }

/-- A one-processor registry with `wProc` as default. -/
def wRegistry : Registry := ⟨[wProc], wProc⟩

/-- An empty registry (no processor can be found by name). -/
def wRegistryEmpty : Registry := ⟨[], wProc⟩

/-- An enabled user header edit. -/
def wHeader : HeaderEdit := ⟨true, "x-test", "1", false, 0⟩

/-- A GET snapshot carrying one user header edit. -/
def wRequestGet : BrowseRequest :=
  ⟨"http://example.test/", "GET", [wHeader], ⟨"multipart", ""⟩⟩

/-- A POST snapshot whose enctype is not registered in `wRegistryEmpty`. -/
def wRequestPost : BrowseRequest :=
  ⟨"http://example.test/", "POST", [wHeader], ⟨"multipart", "a=1"⟩⟩

/-- Execute message replaying `wRequestGet` on session identifier 1. -/
def wMsgGet : ExecuteMessage := ⟨1, wRequestGet⟩

/-- Execute message replaying `wRequestPost` on session identifier 1. -/
def wMsgPost : ExecuteMessage := ⟨1, wRequestPost⟩

/-- An active session rule for session identifier 2. -/
def wRule2 : SessionRule := ⟨2, [⟨"x-test", .set, some "1"⟩], [2], ["main_frame"]⟩

/-- An active session rule for session identifier 1. -/
def wRule1 : SessionRule := ⟨1, [⟨"x-test", .set, some "1"⟩], [1], ["main_frame"]⟩

/-- An outgoing content-type header. -/
def wCtHeader : HttpHeader := ⟨"Content-Type", some "multipart/form-data"⟩

/-! ## Helper lemmas -/

theorem string_ne_empty_iff_length_pos (s : String) : s ≠ "" ↔ 0 < s.length := by
  constructor
  · intro h
    cases s with
    | mk data =>
      cases data with
      | nil => exact absurd rfl h
      | cons a l => simp [String.length]
  · intro h he
    subst he
    simp [String.length] at h

theorem contains_singleton_beq (n tabId : Nat) :
    ([tabId].contains n) = (n == tabId) := by
  cases h : (n == tabId) <;> simp [List.contains, List.elem, h]

theorem filter_removeId_filter_id (l : List SessionRule) (tabId : Nat) :
    ((l.filter fun r => !([tabId].contains r.id)).filter fun r => r.id == tabId)
      = [] := by
  induction l with
  | nil => rfl
  | cons a t ih =>
    by_cases h : a.id = tabId <;>
      simp [List.filter_cons, contains_singleton_beq, h, ih]

theorem filter_removeId_of_no_match (l : List SessionRule) (tabId : Nat)
    (h : l.filter (fun r => r.id == tabId) = []) :
    (l.filter fun r => !([tabId].contains r.id)) = l := by
  induction l with
  | nil => rfl
  | cons a t ih =>
    by_cases ha : a.id = tabId
    · simp [List.filter_cons, ha] at h
    · have hb : (a.id == tabId) = false := by simp [ha]
      rw [List.filter_cons, hb] at h
      simp only [Bool.false_eq_true, if_false] at h
      rw [List.filter_cons, ih h]
      simp [contains_singleton_beq, hb, ha]

theorem filter_removeId_idem (l : List SessionRule) (tabId : Nat) :
    ((l.filter fun r => !([tabId].contains r.id)).filter
        fun r => !([tabId].contains r.id))
      = l.filter fun r => !([tabId].contains r.id) := by
  induction l with
  | nil => rfl
  | cons a t ih =>
    by_cases h : a.id = tabId <;>
      simp [List.filter_cons, contains_singleton_beq, h, ih]

theorem find_none_of_filter_ne {α : Type} (l : List (Nat × α)) (tabId : Nat) :
    (l.filter fun e => e.1 ≠ tabId).find? (fun e => e.1 == tabId) = none := by
  induction l with
  | nil => rfl
  | cons a t ih =>
    by_cases h : a.1 = tabId <;> simp [List.filter_cons, List.find?, h, ih]

theorem filter_ne_idem {α : Type} (l : List (Nat × α)) (tabId : Nat) :
    ((l.filter fun e => e.1 ≠ tabId).filter fun e => e.1 ≠ tabId)
      = l.filter fun e => e.1 ≠ tabId := by
  induction l with
  | nil => rfl
  | cons a t ih =>
    by_cases h : a.1 = tabId <;> simp [List.filter_cons, h, ih]

theorem getBrowseRequest_update (st : TabStore) (tabId : Nat) (r : BrowseRequest) :
    (st.updateBrowseRequest tabId r).getBrowseRequest tabId = some r := by
  simp [TabStore.updateBrowseRequest, TabStore.getBrowseRequest, List.find?]

/-! ## Claim theorems -/

/-- C1.  Directive computation of the execute path: every enabled header
edit with a non-empty name produces exactly one directive — `set` with
the edit's value when the value is non-empty or remove-if-empty is false,
`remove` when the value is empty and remove-if-empty is true — and every
disabled or empty-named edit produces none: `sessionRulesOf` agrees with
the per-edit `specDirectiveOf` written from the spec's words. -/
theorem sessionRules_directive_correct (hs : List HeaderEdit) :
    sessionRulesOf hs = hs.filterMap specDirectiveOf := by
  induction hs with
  | nil => rfl
  | cons h t ih =>
    have hn := string_ne_empty_iff_length_pos h.name
    have hv := string_ne_empty_iff_length_pos h.value
    simp only [sessionRulesOf, List.filter_cons, List.filterMap_cons] at ih ⊢
    by_cases e : h.enabled = true <;> by_cases n : 0 < h.name.length <;>
      by_cases v : h.value.length = 0 <;>
        by_cases r : h.removeIfEmptyValue = true <;>
          simp_all [specDirectiveOf, Nat.pos_iff_ne_zero]

/-- C2.  Synthetic content-type injection: for an execute message whose
method carries a body and whose enctype resolves to a processor, exactly
one synthetic enabled `content-type` edit (value = the processor's wire
content-type, remove-if-empty false) is appended when the processor's
form enctype differs from its wire content-type — contributing exactly
one additional `set` directive after the user-specified ones — and
nothing is appended when the two are equal. -/
theorem execute_synthetic_content_type
    (registry : Registry) (method enctype : String) (headers : List HeaderEdit)
    (p : Processor)
    (hm : BodyAvailableMethods.contains method = true)
    (hp : registry.find enctype = some p) :
    (p.formEnctype ≠ p.httpContentType →
      modifiedHeadersOf registry method enctype headers =
        .ok (headers ++ [syntheticContentTypeEdit p]) ∧
      sessionRulesOf (headers ++ [syntheticContentTypeEdit p]) =
        sessionRulesOf headers ++
          [{ header := "content-type", operation := .set,
             value := some p.httpContentType }]) ∧
    (p.formEnctype = p.httpContentType →
      modifiedHeadersOf registry method enctype headers = .ok headers) := by
  have hm' : method ∈ BodyAvailableMethods := by simpa using hm
  have hct : 0 < ("content-type" : String).length := by decide
  constructor
  · intro hne
    constructor
    · simp [modifiedHeadersOf, hm', hp, hne]
    · simp [sessionRulesOf, List.filter_append, List.map_append,
        syntheticContentTypeEdit, hct]
  · intro heq
    simp [modifiedHeadersOf, hm', hp, heq]

/-- Witness for C2 at a concrete registry whose processor's form enctype
and wire content-type differ. -/
theorem execute_synthetic_content_type_witness :
    modifiedHeadersOf wRegistry "POST" "multipart" [] =
      .ok [syntheticContentTypeEdit wProc] :=
  ((execute_synthetic_content_type wRegistry "POST" "multipart" [] wProc
    (by decide) rfl).1 (by decide)).1

/-- C3.  Rule activation shape: every execute message that reaches rule
activation submits exactly one rule update whose removal list is the
session identifier, whose added rules are the single scoped rule
(session's tab, `main_frame`) exactly when at least one directive was
produced, and applying it leaves at most one active rule for that
identifier. -/
theorem execute_rule_activation
    (registry : Registry) (submitOutcome : Option String) (msg : ExecuteMessage)
    (st : List SessionRule) (hs : List HeaderEdit)
    (h : modifiedHeadersOf registry msg.data.method msg.data.body.enctype
      msg.data.headers = .ok hs) :
    handleExecute registry submitOutcome msg =
      .ok (Effect.updateRules (updateRuleOptionsOf msg.tabId (sessionRulesOf hs))
        :: executeTail submitOutcome msg) ∧
    (updateRuleOptionsOf msg.tabId (sessionRulesOf hs)).removeRuleIds
      = [msg.tabId] ∧
    ((updateRuleOptionsOf msg.tabId (sessionRulesOf hs)).addRules =
      if sessionRulesOf hs = [] then []
      else [{ id := msg.tabId
              requestHeaders := sessionRulesOf hs
              tabIds := [msg.tabId]
              resourceTypes := ["main_frame"] }]) ∧
    ((updateSessionRules st
        (updateRuleOptionsOf msg.tabId (sessionRulesOf hs))).filter
      (fun r => r.id == msg.tabId)).length ≤ 1 := by
  refine ⟨?_, rfl, ?_, ?_⟩
  · unfold handleExecute
    rw [h]
  · by_cases hd : sessionRulesOf hs = [] <;>
      simp [updateRuleOptionsOf, hd, List.length_pos]
  · have h1 := filter_removeId_filter_id st msg.tabId
    simp only [updateSessionRules, updateRuleOptionsOf, List.filter_append]
    rw [h1, List.nil_append]
    by_cases hd : 0 < (sessionRulesOf hs).length <;> simp [hd]

/-- Witness for C3 at a concrete execute message with a GET method. -/
theorem execute_rule_activation_witness :
    handleExecute wRegistry none wMsgGet =
      .ok (Effect.updateRules (updateRuleOptionsOf 1 (sessionRulesOf [wHeader]))
        :: executeTail none wMsgGet) :=
  (execute_rule_activation wRegistry none wMsgGet [] [wHeader] rfl).1

theorem handleResponseCompleted_eq (rules : List SessionRule) (tabId : Nat) :
    handleResponseCompleted rules tabId
      = rules.filter fun r => !([tabId].contains r.id) := by
  simp [handleResponseCompleted, updateSessionRules]

/-- C4.  Lifecycle teardown: the shared redirect/completed/errored handler
leaves no active rule for the session identifier, is idempotent, and is a
plain no-op (not an error) when no rule for the identifier exists. -/
theorem lifecycle_teardown (rules : List SessionRule) (tabId : Nat) :
    ((handleResponseCompleted rules tabId).filter fun r => r.id == tabId) = [] ∧
    handleResponseCompleted (handleResponseCompleted rules tabId) tabId =
      handleResponseCompleted rules tabId ∧
    (rules.filter (fun r => r.id == tabId) = [] →
      handleResponseCompleted rules tabId = rules) := by
  simp only [handleResponseCompleted_eq]
  exact ⟨filter_removeId_filter_id rules tabId,
         filter_removeId_idem rules tabId,
         fun h => filter_removeId_of_no_match rules tabId h⟩

/-- Witness for C4 at a concrete rule list holding a rule for another
session identifier. -/
theorem lifecycle_teardown_witness :
    handleResponseCompleted [wRule2] 1 = [wRule2] :=
  (lifecycle_teardown [wRule2] 1).2.2 (by decide)

/-- C5 counterexample: the tab-removal handler calls only
`tabStore.remove`; with an active rule for session identifier 1 in place,
the rule is still active after the handler runs, contradicting the claim
that the handler removes any active rewrite rule for the identifier. -/
theorem tab_removed_rule_counterexample :
    ¬ ((onTabRemoved ⟨[(1, wRequestPost)], [(1, 7)]⟩ [wRule1] 1).2.filter
        (fun r => r.id == 1) = []) := by decide

/-- C5 (amended).  The tab-removal handler removes the Session Store
entry (snapshot and peer reference) for the identifier, leaves the active
rule set untouched, and a repeated (stray) event for the same identifier
is a no-op rather than an error. -/
theorem tab_removed_cleanup (st : TabStore) (rules : List SessionRule)
    (tabId : Nat) :
    (onTabRemoved st rules tabId).1.getBrowseRequest tabId = none ∧
    (onTabRemoved st rules tabId).1.getConnection tabId = none ∧
    (onTabRemoved st rules tabId).2 = rules ∧
    onTabRemoved (onTabRemoved st rules tabId).1 (onTabRemoved st rules tabId).2
        tabId
      = onTabRemoved st rules tabId := by
  refine ⟨?_, ?_, rfl, ?_⟩
  · simp [onTabRemoved, TabStore.remove, TabStore.getBrowseRequest,
      find_none_of_filter_ne]
  · simp [onTabRemoved, TabStore.remove, TabStore.getConnection,
      find_none_of_filter_ne]
  · simp [onTabRemoved, TabStore.remove, filter_ne_idem]

/-- C6.  Unsupported encoding: an execute message whose method carries a
body and whose declared enctype has no registered processor throws
`Unsupported enctype` before any host action, leaving the active rule set
unchanged (the execute branch never writes the Session Store at all). -/
theorem execute_unsupported_enctype
    (registry : Registry) (submitOutcome : Option String) (msg : ExecuteMessage)
    (rules : List SessionRule)
    (hm : BodyAvailableMethods.contains msg.data.method = true)
    (hp : registry.find msg.data.body.enctype = none) :
    handleExecute registry submitOutcome msg = .error "Unsupported enctype" ∧
    executeRuleState registry submitOutcome msg rules = rules := by
  have hm' : msg.data.method ∈ BodyAvailableMethods := by simpa using hm
  have he : modifiedHeadersOf registry msg.data.method msg.data.body.enctype
      msg.data.headers = .error "Unsupported enctype" := by
    simp [modifiedHeadersOf, hm', hp]
  have h1 : handleExecute registry submitOutcome msg
      = .error "Unsupported enctype" := by
    unfold handleExecute
    rw [he]
  refine ⟨h1, ?_⟩
  unfold executeRuleState
  rw [h1]

/-- Witness for C6: a POST execute message against an empty registry. -/
theorem execute_unsupported_enctype_witness :
    handleExecute wRegistryEmpty none wMsgPost = .error "Unsupported enctype" ∧
    executeRuleState wRegistryEmpty none wMsgPost [wRule2] = [wRule2] :=
  execute_unsupported_enctype wRegistryEmpty none wMsgPost [wRule2]
    (by decide) rfl

/-- C7 counterexample: with no attached peer for session identifier 1,
the load branch faults on the non-null connection assertion instead of
being a silent no-op. -/
theorem load_detached_peer_counterexample :
    handleLoad ⟨[(1, wRequestPost)], []⟩ 1 = .fault := rfl

/-- C7 (amended).  The load branch forwards the stored snapshot verbatim
to the attached peer; when no peer is attached it faults on the failed
non-null assertion rather than silently dropping the operation. -/
theorem load_dispatch (st : TabStore) (tabId : Nat) :
    (st.getConnection tabId = none → handleLoad st tabId = .fault) ∧
    ∀ conn, st.getConnection tabId = some conn →
      handleLoad st tabId = .sent conn (st.getBrowseRequest tabId) := by
  constructor
  · intro h
    unfold handleLoad
    rw [h]
  · intro conn h
    unfold handleLoad
    rw [h]

/-- Witness for C7 (amended) at a store with an attached peer. -/
theorem load_dispatch_witness :
    handleLoad ⟨[(1, wRequestPost)], [(1, 7)]⟩ 1 = .sent 7 (some wRequestPost) :=
  (load_dispatch ⟨[(1, wRequestPost)], [(1, 7)]⟩ 1).2 7 rfl

/-- C8.  Raw body reconstruction: the reconstructed body is the in-order
concatenation of per-segment texts — the decoded text for inline bytes,
the placeholder naming the file for a file reference (the file is never
read), the empty string for a segment with neither — and the example
segment list reconstructs as specified. -/
theorem raw_body_reconstruction :
    (∀ segments, rawBodyContent segments
      = String.join (segments.map rawSegmentText)) ∧
    (∀ b, rawSegmentText ⟨none, some b⟩ = b) ∧
    (∀ f, f ≠ "" →
      rawSegmentText ⟨some f, none⟩ = "[Content of '" ++ f ++ "']") ∧
    rawSegmentText ⟨none, none⟩ = "" ∧
    rawBodyContent [⟨none, some "hello "⟩, ⟨some "f.bin", none⟩]
      = "hello [Content of 'f.bin']" := by
  refine ⟨fun _ => rfl, fun b => rfl, ?_, rfl, by decide⟩
  intro f hf
  simp [rawSegmentText, jsTruthyStr, hf]

/-- Witness for C8's file-segment case at a concrete file name. -/
theorem raw_body_reconstruction_witness :
    rawSegmentText ⟨some "f.bin", none⟩ = "[Content of 'f.bin']" :=
  raw_body_reconstruction.2.2.1 "f.bin" (by decide)

/-- C9.  Form-data capture: the snapshot stored for the session holds the
ordered percent-encoded serialization of the form's key/value pairs
(multi-valued keys repeated) with the registry's default processor name
as enctype, and the example pairs serialize to `a=1&b=x+y`. -/
theorem formdata_capture (registry : Registry) (st : TabStore) (tabId : Nat)
    (url method : String) (fd : List (String × List String)) :
    (onBeforeRequest registry st tabId url method
        (some ⟨some fd, none⟩)).getBrowseRequest tabId =
      some { url := url
             method := method.toUpper
             headers := []
             body := { enctype := registry.getDefaultProcessorName
                       content := serializeParams
                         (fd.flatMap fun f => f.2.map fun v => (f.1, v)) } } ∧
    serializeParams [("a", "1"), ("b", "x y")] = "a=1&b=x+y" :=
  ⟨getBrowseRequest_update st tabId _, by decide⟩

/-- C10.  Encoding-resolver precondition: when the outgoing headers hold
a content-type header, the handler faults (undefined dereference) exactly
when no snapshot is stored for the session identifier; with a snapshot
present it overwrites only the snapshot's enctype with the resolved
processor's name. -/
theorem resolver_snapshot_precondition (registry : Registry) (st : TabStore)
    (tabId : Nat) (hdrs : List HttpHeader) (ct : HttpHeader)
    (hct : hdrs.find? (fun h => jsToLower h.name == "content-type") = some ct) :
    (st.getBrowseRequest tabId = none →
      onBeforeSendHeaders registry st tabId (some hdrs) = none) ∧
    ∀ r, st.getBrowseRequest tabId = some r →
      onBeforeSendHeaders registry st tabId (some hdrs) =
        some (st.updateBrowseRequest tabId
          { r with body := { r.body with enctype :=
              ((registry.findByContentType (ct.value.getD "")).getD
                registry.getDefaultProcessor).name } }) := by
  constructor
  · intro h
    unfold onBeforeSendHeaders
    rw [Option.getD_some, hct, h]
  · intro r h
    unfold onBeforeSendHeaders
    rw [Option.getD_some, hct, h]

/-- Witness for C10: a content-type header with no stored snapshot makes
the handler fault. -/
theorem resolver_snapshot_precondition_witness :
    onBeforeSendHeaders wRegistry ⟨[], []⟩ 1 (some [wCtHeader]) = none :=
  (resolver_snapshot_precondition wRegistry ⟨[], []⟩ 1 [wCtHeader] wCtHeader
    (by decide)).1 rfl

end HackBar
